import Mathlib

/-!
Verification of the Pixel Arcade app logic (src/app.js).

Modelling conventions:
* JavaScript numbers are modelled as exact rationals.  Every numeric
  constant in the program is a short decimal literal and every claim's
  numeric conclusion is far away from any binary floating-point rounding
  boundary, so the rational model agrees with the JS semantics on all the
  facts proved below.
* Each call of Math.random() is modelled by one explicit rational
  parameter (the draw, a value in the interval from 0 inclusive to 1
  exclusive).
* localStorage plus JSON serialization is modelled by a string-keyed map
  together with an abstract codec (a stringify/parse pair); availability
  of the storage and write success are explicit booleans.
* DOM writes and render calls have no effect on the simulation state; a
  tick function additionally returns a boolean recording whether the
  render step of that tick executed.
-/

/-- Embeds clamp from src/app.js: Math.max(a, Math.min(b, v)). -/
def clamp (v a b : ℚ) : ℚ := max a (min b v)

/-- Abstract JSON codec: JSON.stringify and JSON.parse restricted to the
value type V; parse returns none where JSON.parse would throw. -/
structure Codec (V : Type) where
  stringify : V → String
  parse : String → Option V

/-- State of the browser storage backing the store object: whether
localStorage is accessible at all, whether writes succeed (quota), and
the stored text per key (none models a missing key). -/
structure StorageState where
  avail : Bool
  canWrite : Bool
  data : String → Option String

/-- Embeds store.get from src/app.js: reads the raw text, returns the
fallback when storage throws, when the key is missing, when the raw text
is falsy (the empty string), or when JSON.parse throws. -/
def storeGet {V : Type} (c : Codec V) (st : StorageState) (key : String) (fallback : V) : V :=
  if st.avail then
    match st.data key with
    | none => fallback
    | some raw => if raw = "" then fallback else (c.parse raw).getD fallback
  else fallback

/-- Embeds store.set from src/app.js: serializes and writes; any failure
(storage unavailable or write rejected) is swallowed and leaves the
storage unchanged. -/
def storeSet {V : Type} (c : Codec V) (st : StorageState) (key : String) (value : V) : StorageState :=
  if st.avail && st.canWrite then
    { st with data := fun k => if k = key then some (c.stringify value) else st.data k }
  else st

/-- A concrete codec on naturals, used to instantiate the store theorems
on concrete inputs. -/
def natCodec : Codec ℕ where
  stringify := fun n => String.mk (List.replicate (n + 1) 'a')
  parse := fun s => some (s.data.length - 1)

/-- A concrete storage key, used for concrete instantiations. -/
def demoKey : String := "px_best_runner"

/-- An empty, fully available storage. -/
def emptyStorage : StorageState where
  avail := true
  canWrite := true
  data := fun _ => none

/-- One Byte Runner obstacle as pushed by spawnObstacle in src/app.js:
a lane index, a vertical position y, and a height h. -/
structure Obstacle where
  lane : ℕ
  y : ℚ
  h : ℚ

/-- The mutable state of the Byte Runner closure in src/app.js, together
with the module-local best value and the text stored under its storage
key (modelled directly as the persisted integer). -/
structure RunnerState where
  running : Bool
  paused : Bool
  alive : Bool
  playerLane : ℕ
  lastT : ℚ
  speed : ℚ
  score : ℚ
  distance : ℚ
  obstacles : List Obstacle
  spawnTimer : ℚ
  spawnEvery : ℚ
  best : ℤ
  stored : ℤ

/-- The constant speedGain of src/app.js. -/
def speedGain : ℚ := 10

/-- Embeds laneX from src/app.js with W = 360: lane center positions at
20, 50 and 80 percent of the play-field width. -/
def laneX (i : ℕ) : ℚ := 360 * (0.2 + (i : ℚ) * 0.3)

/-- Embeds rectsOverlap from src/app.js (strict axis-aligned
bounding-box overlap test). -/
def rectsOverlap (ax ay aw ah bx bly bw bh : ℚ) : Bool :=
  decide (ax < bx + bw) && decide (ax + aw > bx) &&
    decide (ay < bly + bh) && decide (ay + ah > bly)

/-- The Math.random() draws one Byte Runner update tick may consume, in
the order the code would draw them: lane and height of the first spawned
obstacle, the spike-probability draw, lane and height of the optional
second obstacle. -/
structure RunnerRng where
  lane1 : ℚ
  h1 : ℚ
  spike : ℚ
  lane2 : ℚ
  h2 : ℚ

/-- Embeds spawnObstacle from src/app.js for one pair of random draws:
lane = floor(r * 3), h = 18 + floor(r * 18), initial y = -h. -/
def spawnObstacle (rl rh : ℚ) : Obstacle :=
  let h : ℚ := 18 + (⌊rh * 18⌋ : ℤ)
  { lane := (⌊rl * 3⌋).toNat, y := -h, h := h }

/-- The difficulty-ramp and scoring lines of update in src/app.js:
distance, speed, spawnEvery and score, in program order. -/
def runnerRamp (dt : ℚ) (st : RunnerState) : RunnerState :=
  let distance := st.distance + st.speed * dt
  let speed := st.speed + speedGain * dt
  let spawnEvery := clamp (0.85 - distance / 80000) 0.35 0.85
  let score := st.score + (12 + speed * 0.05) * dt
  { st with distance := distance, speed := speed, spawnEvery := spawnEvery, score := score }

/-- The spawn block of update in src/app.js: the spawn timer accumulates
dt; when it reaches spawnEvery it resets to 0 and one obstacle spawns,
plus a rare second one once distance exceeds 2000. -/
def runnerSpawn (rng : RunnerRng) (dt : ℚ) (st : RunnerState) : RunnerState :=
  let t := st.spawnTimer + dt
  if st.spawnEvery ≤ t then
    let obs1 := st.obstacles ++ [spawnObstacle rng.lane1 rng.h1]
    let obs2 :=
      if rng.spike < 0.10 ∧ 2000 < st.distance then
        obs1 ++ [spawnObstacle rng.lane2 rng.h2]
      else obs1
    { st with spawnTimer := 0, obstacles := obs2 }
  else { st with spawnTimer := t }

/-- The obstacle-advance line of update in src/app.js: every obstacle
moves down by speed * dt. -/
def runnerMove (dt : ℚ) (st : RunnerState) : RunnerState :=
  { st with obstacles := st.obstacles.map (fun o => { o with y := o.y + st.speed * dt }) }

/-- The cull line of update in src/app.js: obstacles past H + 60 = 540
are discarded. -/
def runnerCull (st : RunnerState) : RunnerState :=
  { st with obstacles := st.obstacles.filter (fun o => decide (o.y < 480 + 60)) }

/-- The collision test of update in src/app.js between the player's
28-by-28 box at the player lane and one obstacle's 36-by-h box. -/
def playerHit (playerLane : ℕ) (o : Obstacle) : Bool :=
  rectsOverlap (laneX playerLane - 14) (480 - 70) 28 28 (laneX o.lane - 18) o.y 36 o.h

/-- The collision loop of update in src/app.js: on the first overlap the
session dies and max(best, floor(score)) is persisted.  The loop's only
effects are setting alive, best and the stored value once, so testing
for the existence of an overlap yields the identical final state. -/
def runnerCollide (st : RunnerState) : RunnerState :=
  if st.obstacles.any (playerHit st.playerLane) then
    let best := max st.best ⌊st.score⌋
    { st with alive := false, best := best, stored := best }
  else st

/-- Embeds update from src/app.js (a no-op once dead). -/
def runnerUpdate (rng : RunnerRng) (dt : ℚ) (st : RunnerState) : RunnerState :=
  if st.alive then
    runnerCollide (runnerCull (runnerMove dt (runnerSpawn rng dt (runnerRamp dt st))))
  else st

/-- Embeds the shared frame-clock timestep computation of the loop
functions in src/app.js: if the stored timestamp is unset (0) it is first
set to the current time, and dt = min(0.05, (t - last) / 1000). -/
def clockDt (last t : ℚ) : ℚ :=
  let l := if last = 0 then t else last
  min 0.05 ((t - l) / 1000)

/-- Embeds loop of createByteRunner in src/app.js for one animation
frame at time t.  Returns the new state together with a boolean telling
whether the render step (draw) executed on this tick. -/
def runnerTick (rng : RunnerRng) (t : ℚ) (st : RunnerState) : RunnerState × Bool :=
  if st.running then
    let dt := clockDt st.lastT t
    let st1 : RunnerState := { st with lastT := t }
    (if !st1.paused && st1.alive then runnerUpdate rng dt st1 else st1, true)
  else (st, true)

/-- The state installed by reset in createByteRunner (with a prior best
of b both in the closure variable and in storage). -/
def runnerInit (b : ℤ) : RunnerState where
  running := true
  paused := false
  alive := true
  playerLane := 1
  lastT := 0
  speed := 110
  score := 0
  distance := 0
  obstacles := []
  spawnTimer := 0
  spawnEvery := 0.85
  best := b
  stored := b

/-- A fixed tuple of random draws for concrete instantiations (the spike
draw 1 suppresses the optional second spawn). -/
def rng0 : RunnerRng where
  lane1 := 0
  h1 := 0
  spike := 1
  lane2 := 0
  h2 := 0

/-- The mutable state of the Glitch React closure in src/app.js, with the
module-local best and the persisted best. -/
structure ReactState where
  paused : Bool
  live : Bool
  streak : ℕ
  timeLeft : ℚ
  timer : ℚ
  targetIndex : ℕ
  best : ℕ
  stored : ℕ
  last : ℚ

/-- Embeds newTarget from src/app.js for one random draw r: a new target
index floor(r * 4), timer reset, and the response window recomputed from
the current streak. -/
def reactNewTarget (r : ℚ) (st : ReactState) : ReactState :=
  { st with targetIndex := (⌊r * 4⌋).toNat, timer := 0,
            timeLeft := clamp (1.55 - (st.streak : ℚ) * 0.03) 0.55 1.55 }

/-- Embeds end of createGlitchReact in src/app.js: the session stops
being live and max(best, streak) is persisted. -/
def reactEnd (st : ReactState) : ReactState :=
  let b := max st.best st.streak
  { st with live := false, best := b, stored := b }

/-- Embeds hit from src/app.js: ignored unless live and unpaused; a
matching index increments the streak and issues a new target; a mismatch
ends the session. -/
def reactHit (i : ℕ) (r : ℚ) (st : ReactState) : ReactState :=
  if !st.live || st.paused then st
  else if i = st.targetIndex then reactNewTarget r { st with streak := st.streak + 1 }
  else reactEnd st

/-- Embeds loop of createGlitchReact in src/app.js for one animation
frame at time t.  Returns the new state and whether the render step
executed on this tick (the code returns before rendering when the
session is not live or paused). -/
def reactTick (t : ℚ) (st : ReactState) : ReactState × Bool :=
  let dt := clockDt st.last t
  let st1 : ReactState := { st with last := t }
  if !st1.live || st1.paused then (st1, false)
  else
    let timer := st1.timer + dt
    if st1.timeLeft ≤ timer then (reactEnd { st1 with timer := timer }, true)
    else ({ st1 with timer := timer }, true)

/-- A live but paused Glitch React session, for concrete instantiations. -/
def reactPausedSt : ReactState where
  paused := true
  live := true
  streak := 3
  timeLeft := 1.46
  timer := 0.2
  targetIndex := 2
  best := 5
  stored := 5
  last := 1

/-- The best value stored after a sequence of Byte Runner sessions whose
deaths happen with the given final scores, starting from a prior stored
best: each death persists max(best, floor(score)). -/
def runnerSessions (prior : ℤ) (scores : List ℚ) : ℤ :=
  scores.foldl (fun b s => max b ⌊s⌋) prior

/-- A concrete runner state with an obstacle overlapping the player's
box in the player's lane, for the C5 witness. -/
def runnerHitSt : RunnerState :=
  { runnerInit 50 with score := 100.5, obstacles := [{ lane := 1, y := 410, h := 28 }] }

/-- A live, unpaused Glitch React session for concrete instantiations. -/
def reactLiveSt : ReactState := { reactPausedSt with paused := false }

/-- A paused Byte Runner session for concrete instantiations. -/
def runnerPausedSt : RunnerState := { runnerInit 0 with paused := true }

/-- A stopped (unmounted) Byte Runner session for concrete
instantiations. -/
def runnerStoppedSt : RunnerState := { runnerInit 0 with running := false }

/-- A Glitch React session at streak 40, for the C8 witness. -/
def reactStreak40 : ReactState := { reactLiveSt with streak := 40 }

/-- The mutable state of the Neon Clicker closure in src/app.js (the
persisted state object plus the loop-local paused flag, passive-income
buffer and frame timestamp). -/
structure ClickerState where
  bits : ℚ
  total : ℚ
  bpc : ℚ
  bps : ℚ
  core : ℕ
  drip : ℕ
  crit : ℕ
  paused : Bool
  tickTimer : ℚ
  last : ℚ

/-- One entry of the upgradeDefs array in src/app.js: base cost, cost
growth factor, the level read from the state, and the buy effect. -/
structure UpgradeDef where
  base : ℚ
  mult : ℚ
  level : ClickerState → ℕ
  buyEff : ClickerState → ClickerState

/-- Embeds the upgradeDefs array of src/app.js, indexed 0 = core,
1 = drip, 2 = crit. -/
def upgradeDefs (i : Fin 3) : UpgradeDef :=
  if i.val = 0 then
    { base := 25, mult := 1.22, level := fun s => s.core,
      buyEff := fun s => { s with core := s.core + 1, bpc := s.bpc + 1 } }
  else if i.val = 1 then
    { base := 60, mult := 1.28, level := fun s => s.drip,
      buyEff := fun s => { s with drip := s.drip + 1, bps := s.bps + 1 } }
  else
    { base := 120, mult := 1.35, level := fun s => s.crit,
      buyEff := fun s => { s with crit := s.crit + 1 } }

/-- The cost formula of calcCost in src/app.js at an explicit level:
floor(base * mult ^ level). -/
def costAt (i : Fin 3) (lvl : ℕ) : ℤ :=
  ⌊(upgradeDefs i).base * (upgradeDefs i).mult ^ lvl⌋

/-- Embeds calcCost from src/app.js: the cost at the level currently
stored in the state. -/
def calcCost (i : Fin 3) (s : ClickerState) : ℤ := costAt i ((upgradeDefs i).level s)

/-- Embeds the buy-button click handler of createNeonClicker.render in
src/app.js: re-read the cost, reject when bits are short, otherwise pay
the cost and apply the upgrade's effect once. -/
def clickerBuy (i : Fin 3) (s : ClickerState) : ClickerState :=
  let c : ℚ := ((calcCost i s : ℤ) : ℚ)
  if s.bits < c then s
  else (upgradeDefs i).buyEff { s with bits := s.bits - c }

/-- The critical-hit chance of clickGain in src/app.js. -/
def critChance (s : ClickerState) : ℚ := clamp (0.08 + (s.crit : ℚ) * 0.02) 0.08 0.40

/-- Embeds clickGain from src/app.js for one random draw r: the gain is
bpc times 3 + min(4, crit) on a critical draw, times 1 otherwise. -/
def clickGain (r : ℚ) (s : ClickerState) : ℚ :=
  s.bpc * (if r < critChance s then 3 + ((min 4 s.crit : ℕ) : ℚ) else 1)

/-- Embeds a generate-bits click (clickGain followed by addBits) from
src/app.js: both bits and total grow by the gain. -/
def clickerClick (r : ℚ) (s : ClickerState) : ClickerState :=
  { s with bits := s.bits + clickGain r s, total := s.total + clickGain r s }

/-- Embeds the passive-income part of loop in createNeonClicker
(src/app.js) for one frame of length dt: no discharge while paused; the
buffer accumulates dt and discharges in whole 0.2 second quanta, each
contributing bps * 0.2. -/
def clickerPassive (dt : ℚ) (s : ClickerState) : ClickerState :=
  if s.paused then s
  else
    let tt := s.tickTimer + dt
    if 0.2 ≤ tt then
      let steps : ℤ := ⌊tt / 0.2⌋
      let tt2 := tt - (steps : ℚ) * 0.2
      let gain := s.bps * 0.2 * (steps : ℚ)
      if 0 < gain then
        { s with tickTimer := tt2, bits := s.bits + gain, total := s.total + gain }
      else { s with tickTimer := tt2 }
    else { s with tickTimer := tt }

/-- Embeds restart of createNeonClicker in src/app.js: every accumulator
and level returns to its initial default. -/
def clickerRestart (s : ClickerState) : ClickerState :=
  { s with bits := 0, total := 0, bpc := 1, bps := 0, core := 0, drip := 0, crit := 0 }

/-- One Neon Clicker operation: a generate-bits click (with its random
draw), a passive-income frame of length dt, an upgrade purchase, or a
restart. -/
inductive ClickerOp where
  | click (r : ℚ)
  | tick (dt : ℚ)
  | buy (i : Fin 3)
  | restart
deriving DecidableEq

/-- The step function dispatching one Neon Clicker operation. -/
def clickerStep (op : ClickerOp) (s : ClickerState) : ClickerState :=
  match op with
  | ClickerOp.click r => clickerClick r s
  | ClickerOp.tick dt => clickerPassive dt s
  | ClickerOp.buy i => clickerBuy i s
  | ClickerOp.restart => clickerRestart s

/-- The default Neon Clicker state of src/app.js (fresh storage). -/
def clickerInit : ClickerState where
  bits := 0
  total := 0
  bpc := 1
  bps := 0
  core := 0
  drip := 0
  crit := 0
  paused := false
  tickTimer := 0
  last := 0

/-- C3: store.get returns the fallback, without raising, on a missing key,
on unavailable storage, or on a parse failure; store.set silently no-ops
on write failure; and set followed by get returns the stored value for
every value the codec round-trips. -/
theorem store_spec {V : Type} (c : Codec V) (st : StorageState) (k : String) (f v : V) :
    (st.data k = none → storeGet c st k f = f) ∧
    (st.avail = false → storeGet c st k f = f) ∧
    (∀ raw, st.data k = some raw → c.parse raw = none → storeGet c st k f = f) ∧
    ((st.avail && st.canWrite) = false → storeSet c st k v = st) ∧
    (st.avail = true → st.canWrite = true → c.parse (c.stringify v) = some v →
      c.stringify v ≠ "" → storeGet c (storeSet c st k v) k f = v) := by
  refine ⟨?_, ?_, ?_, ?_, ?_⟩
  · intro h
    unfold storeGet
    cases hav : st.avail with
    | false => simp
    | true => simp [h]
  · intro h
    unfold storeGet
    simp [h]
  · intro raw hraw hparse
    unfold storeGet
    cases hav : st.avail with
    | false => simp
    | true =>
      simp only [if_pos rfl, hraw]
      by_cases hempty : raw = ""
      · simp [hempty]
      · simp [hempty, hparse]
  · intro h
    unfold storeSet
    simp [h]
  · intro hav hw hparse hne
    unfold storeSet storeGet
    simp [hav, hw, hparse, hne]

/-- Witness for C3 at concrete inputs: a fresh key yields the fallback,
and a round trip through the natural-number codec returns the stored
value. -/
theorem store_spec_witness :
    storeGet natCodec emptyStorage demoKey 7 = 7 ∧
    storeGet natCodec (storeSet natCodec emptyStorage demoKey 42) demoKey 7 = 42 := by
  have h := store_spec natCodec emptyStorage demoKey 7 42
  exact ⟨h.1 rfl, h.2.2.2.2 rfl rfl (by decide) (by decide)⟩

/-- All fields of the runner state except spawnTimer and obstacles are
untouched by the spawn block. -/
theorem runnerSpawn_fields (rng : RunnerRng) (dt : ℚ) (st : RunnerState) :
    (runnerSpawn rng dt st).distance = st.distance ∧
    (runnerSpawn rng dt st).speed = st.speed ∧
    (runnerSpawn rng dt st).spawnEvery = st.spawnEvery ∧
    (runnerSpawn rng dt st).score = st.score ∧
    (runnerSpawn rng dt st).alive = st.alive ∧
    (runnerSpawn rng dt st).best = st.best ∧
    (runnerSpawn rng dt st).stored = st.stored ∧
    (runnerSpawn rng dt st).playerLane = st.playerLane := by
  unfold runnerSpawn
  by_cases h1 : st.spawnEvery ≤ st.spawnTimer + dt <;>
    by_cases h2 : rng.spike < 0.10 ∧ 2000 < st.distance <;>
      simp [h1, h2]

/-- All fields of the runner state except obstacles are untouched by the
move and cull steps. -/
theorem runnerMoveCull_fields (dt : ℚ) (st : RunnerState) :
    (runnerCull (runnerMove dt st)).distance = st.distance ∧
    (runnerCull (runnerMove dt st)).speed = st.speed ∧
    (runnerCull (runnerMove dt st)).spawnEvery = st.spawnEvery ∧
    (runnerCull (runnerMove dt st)).score = st.score ∧
    (runnerCull (runnerMove dt st)).alive = st.alive ∧
    (runnerCull (runnerMove dt st)).best = st.best ∧
    (runnerCull (runnerMove dt st)).stored = st.stored ∧
    (runnerCull (runnerMove dt st)).playerLane = st.playerLane := by
  unfold runnerCull runnerMove
  simp

/-- The collision step only ever touches alive, best and the persisted
value. -/
theorem runnerCollide_fields (st : RunnerState) :
    (runnerCollide st).distance = st.distance ∧
    (runnerCollide st).speed = st.speed ∧
    (runnerCollide st).spawnEvery = st.spawnEvery ∧
    (runnerCollide st).score = st.score ∧
    (runnerCollide st).playerLane = st.playerLane := by
  unfold runnerCollide
  split <;> simp

/-- C4: on a Byte Runner update tick while alive, distance grows by
speed * dt, then speed grows by speedGain * dt (so speed never decreases
for dt at least 0), spawnEvery is reassigned as the clamp of
0.85 - distance / 80000 at the new distance, and score grows by
(12 + speed * 0.05) * dt at the new speed. -/
theorem runnerUpdate_ramp_spec (rng : RunnerRng) (dt : ℚ) (st : RunnerState)
    (ha : st.alive = true) :
    (runnerUpdate rng dt st).distance = st.distance + st.speed * dt ∧
    (runnerUpdate rng dt st).speed = st.speed + speedGain * dt ∧
    (runnerUpdate rng dt st).spawnEvery =
      clamp (0.85 - (st.distance + st.speed * dt) / 80000) 0.35 0.85 ∧
    (runnerUpdate rng dt st).score =
      st.score + (12 + (st.speed + speedGain * dt) * 0.05) * dt ∧
    (0 ≤ dt → st.speed ≤ (runnerUpdate rng dt st).speed) := by
  have hu : runnerUpdate rng dt st =
      runnerCollide (runnerCull (runnerMove dt (runnerSpawn rng dt (runnerRamp dt st)))) := by
    unfold runnerUpdate
    simp [ha]
  obtain ⟨sd, ss, se, sc, _, _, _, _⟩ := runnerSpawn_fields rng dt (runnerRamp dt st)
  obtain ⟨md, ms, me, mc, _, _, _, _⟩ :=
    runnerMoveCull_fields dt (runnerSpawn rng dt (runnerRamp dt st))
  obtain ⟨cd, cs, ce, cc, _⟩ :=
    runnerCollide_fields (runnerCull (runnerMove dt (runnerSpawn rng dt (runnerRamp dt st))))
  have hd : (runnerUpdate rng dt st).distance = st.distance + st.speed * dt := by
    rw [hu, cd, md, sd]; rfl
  have hs : (runnerUpdate rng dt st).speed = st.speed + speedGain * dt := by
    rw [hu, cs, ms, ss]; rfl
  have he : (runnerUpdate rng dt st).spawnEvery =
      clamp (0.85 - (st.distance + st.speed * dt) / 80000) 0.35 0.85 := by
    rw [hu, ce, me, se]; rfl
  have hc : (runnerUpdate rng dt st).score =
      st.score + (12 + (st.speed + speedGain * dt) * 0.05) * dt := by
    rw [hu, cc, mc, sc]; rfl
  refine ⟨hd, hs, he, hc, ?_⟩
  intro hdt
  rw [hs]
  have : 0 ≤ speedGain * dt := by
    have hg : (0 : ℚ) ≤ speedGain := by norm_num [speedGain]
    exact mul_nonneg hg hdt
  linarith

/-- Witness for C4 at a concrete input: one tick of one second from the
freshly reset state. -/
theorem runnerUpdate_ramp_spec_witness :
    (runnerUpdate rng0 1 (runnerInit 0)).distance =
      (runnerInit 0).distance + (runnerInit 0).speed * 1 ∧
    (runnerUpdate rng0 1 (runnerInit 0)).speed =
      (runnerInit 0).speed + speedGain * 1 ∧
    (runnerUpdate rng0 1 (runnerInit 0)).spawnEvery =
      clamp (0.85 - ((runnerInit 0).distance + (runnerInit 0).speed * 1) / 80000) 0.35 0.85 ∧
    (runnerUpdate rng0 1 (runnerInit 0)).score =
      (runnerInit 0).score + (12 + ((runnerInit 0).speed + speedGain * 1) * 0.05) * 1 ∧
    (runnerInit 0).speed ≤ (runnerUpdate rng0 1 (runnerInit 0)).speed := by
  have h := runnerUpdate_ramp_spec rng0 1 (runnerInit 0) rfl
  exact ⟨h.1, h.2.1, h.2.2.1, h.2.2.2.1, h.2.2.2.2 (by norm_num)⟩

theorem runnerSessions_cons (prior : ℤ) (s : ℚ) (l : List ℚ) :
    runnerSessions prior (s :: l) = runnerSessions (max prior ⌊s⌋) l := rfl

/-- runnerSessions computes exactly the maximum of the prior best and the
floors of all the session scores. -/
theorem runnerSessions_spec (l : List ℚ) : ∀ prior : ℤ,
    prior ≤ runnerSessions prior l ∧
    (∀ s ∈ l, ⌊s⌋ ≤ runnerSessions prior l) ∧
    (runnerSessions prior l = prior ∨ ∃ s ∈ l, runnerSessions prior l = ⌊s⌋) := by
  induction l with
  | nil =>
    intro prior
    exact ⟨le_refl _, by simp, Or.inl rfl⟩
  | cons s l ih =>
    intro prior
    obtain ⟨h1, h2, h3⟩ := ih (max prior ⌊s⌋)
    rw [runnerSessions_cons]
    refine ⟨le_trans (le_max_left _ _) h1, ?_, ?_⟩
    · intro x hx
      rcases List.mem_cons.mp hx with hx | hx
      · rw [hx]
        exact le_trans (le_max_right _ _) h1
      · exact h2 x hx
    · rcases h3 with h3 | ⟨x, hx, hx2⟩
      · rcases max_choice prior ⌊s⌋ with hm | hm
        · exact Or.inl (by rw [h3, hm])
        · exact Or.inr ⟨s, List.mem_cons_self _ _, by rw [h3, hm]⟩
      · exact Or.inr ⟨x, List.mem_cons_of_mem _ hx, hx2⟩

/-- C5: whenever the collision scan of a Byte Runner update tick (over
the moved and culled obstacles, against the player's 28-by-28 box at the
player's lane) finds an overlap, the session dies on that tick and the
persisted best becomes max(best, floor(score)) at the tick's new score;
consequently the best stored after a sequence of sessions is the maximum
of the prior best and the floors of all the session scores. -/
theorem runnerUpdate_collision_spec (rng : RunnerRng) (dt : ℚ) (st : RunnerState)
    (ha : st.alive = true)
    (hc : ((runnerCull (runnerMove dt (runnerSpawn rng dt (runnerRamp dt st)))).obstacles.any
        (playerHit st.playerLane)) = true) :
    (runnerUpdate rng dt st).alive = false ∧
    (runnerUpdate rng dt st).best =
      max st.best ⌊st.score + (12 + (st.speed + speedGain * dt) * 0.05) * dt⌋ ∧
    (runnerUpdate rng dt st).stored = (runnerUpdate rng dt st).best ∧
    (∀ prior scores, prior ≤ runnerSessions prior scores ∧
      (∀ s ∈ scores, ⌊s⌋ ≤ runnerSessions prior scores) ∧
      (runnerSessions prior scores = prior ∨
        ∃ s ∈ scores, runnerSessions prior scores = ⌊s⌋)) := by
  have hu : runnerUpdate rng dt st =
      runnerCollide (runnerCull (runnerMove dt (runnerSpawn rng dt (runnerRamp dt st)))) := by
    unfold runnerUpdate
    simp [ha]
  obtain ⟨-, -, -, sc, -, sb, ss2, sp⟩ := runnerSpawn_fields rng dt (runnerRamp dt st)
  obtain ⟨-, -, -, mc, -, mb, ms2, mp⟩ :=
    runnerMoveCull_fields dt (runnerSpawn rng dt (runnerRamp dt st))
  set pre := runnerCull (runnerMove dt (runnerSpawn rng dt (runnerRamp dt st))) with hpre
  have hlane : pre.playerLane = st.playerLane := by
    rw [mp, sp]; rfl
  have hscore : pre.score = st.score + (12 + (st.speed + speedGain * dt) * 0.05) * dt := by
    rw [mc, sc]; rfl
  have hbest : pre.best = st.best := by
    rw [mb, sb]; rfl
  have hhit : pre.obstacles.any (playerHit pre.playerLane) = true := by
    rw [hlane]; exact hc
  have hcol : runnerCollide pre =
      { pre with alive := false, best := max pre.best ⌊pre.score⌋,
                 stored := max pre.best ⌊pre.score⌋ } := by
    unfold runnerCollide
    rw [if_pos hhit]
  refine ⟨?_, ?_, ?_, fun prior scores => runnerSessions_spec scores prior⟩
  · rw [hu, hcol]
  · rw [hu, hcol]
    simp [hbest, hscore]
  · rw [hu, hcol]

/-- Witness for C5 at a concrete input: a zero-length tick on a state
whose single obstacle overlaps the player kills the session and persists
max(50, floor(100.5)) = 100. -/
theorem runnerUpdate_collision_spec_witness :
    (runnerUpdate rng0 0 runnerHitSt).alive = false ∧
    (runnerUpdate rng0 0 runnerHitSt).best =
      max runnerHitSt.best
        ⌊runnerHitSt.score + (12 + (runnerHitSt.speed + speedGain * 0) * 0.05) * 0⌋ ∧
    (runnerUpdate rng0 0 runnerHitSt).stored = (runnerUpdate rng0 0 runnerHitSt).best ∧
    (3 : ℤ) ≤ runnerSessions 3 [(7.5 : ℚ)] := by
  have h := runnerUpdate_collision_spec rng0 0 runnerHitSt rfl (by
    norm_num [runnerCull, runnerMove, runnerSpawn, runnerRamp, runnerHitSt, runnerInit,
      playerHit, rectsOverlap, laneX, spawnObstacle, rng0, clamp, speedGain])
  exact ⟨h.1, h.2.1, h.2.2.1, (h.2.2.2 3 [(7.5 : ℚ)]).1⟩

/-- C9: the frame clock delivers dt = min(0.05, elapsed seconds) on every
tick with a genuine previous timestamp; a raw elapsed time of 5000 ms
yields exactly dt = 0.05; and the engine loops feed exactly this dt into
their update logic. -/
theorem clockDt_spec :
    (∀ l t : ℚ, l ≠ 0 → clockDt l t = min 0.05 ((t - l) / 1000)) ∧
    (∀ l : ℚ, l ≠ 0 → clockDt l (l + 5000) = 0.05) ∧
    (∀ rng t st, st.running = true → st.paused = false → st.alive = true →
      (runnerTick rng t st).1 = runnerUpdate rng (clockDt st.lastT t) { st with lastT := t }) ∧
    (∀ t st, st.live = true → st.paused = false →
      ((reactTick t st).1).timer = st.timer + clockDt st.last t) := by
  have hdt : ∀ l t : ℚ, l ≠ 0 → clockDt l t = min 0.05 ((t - l) / 1000) := by
    intro l t hl
    unfold clockDt
    rw [if_neg hl]
  refine ⟨hdt, ?_, ?_, ?_⟩
  · intro l hl
    rw [hdt l (l + 5000) hl]
    norm_num
  · intro rng t st hrun hpau hal
    unfold runnerTick
    simp [hrun, hpau, hal]
  · intro t st hlive hpau
    unfold reactTick
    simp [hlive, hpau]
    split <;> simp [reactEnd]

/-- Witness for C9 at concrete inputs: from timestamp 1, a frame at
timestamp 5001 (raw elapsed 5000 ms) yields dt = 0.05; the runner and
react loops consume the clock value on a concrete running state. -/
theorem clockDt_spec_witness :
    clockDt 1 (1 + 5000) = 0.05 ∧
    (runnerTick rng0 7 (runnerInit 0)).1 =
      runnerUpdate rng0 (clockDt (runnerInit 0).lastT 7) { runnerInit 0 with lastT := 7 } ∧
    ((reactTick 7 reactLiveSt).1).timer = reactLiveSt.timer + clockDt reactLiveSt.last 7 := by
  have h := clockDt_spec
  exact ⟨h.2.1 1 (by norm_num), h.2.2.1 rng0 7 (runnerInit 0) rfl rfl rfl,
    h.2.2.2 7 reactLiveSt rfl rfl⟩

/-- C1 counterexample: on a Glitch React animation frame from a live but
paused session, the loop returns before any render: the render step of
that tick does not execute, contradicting the claim that render always
executes when update is skipped because of pause. -/
theorem reactTick_paused_skips_render :
    (reactTick 2 reactPausedSt).2 = false := rfl

/-- C1 (amended): in Byte Runner the render step executes on every tick
even when the update step is skipped (pause, death, or not running), a
tick on a stopped session changes nothing, and a paused tick changes no
session state other than the frame-clock timestamp; in Glitch React, a
tick while paused or not live skips the render step as well as the
update, changing nothing but the frame-clock timestamp. -/
theorem tick_render_spec :
    (∀ rng t st, (runnerTick rng t st).2 = true) ∧
    (∀ rng t st, st.running = false → (runnerTick rng t st).1 = st) ∧
    (∀ rng t st, st.running = true → st.paused = true →
      (runnerTick rng t st).1 = { st with lastT := t }) ∧
    (∀ t st, st.live = false ∨ st.paused = true →
      reactTick t st = ({ st with last := t }, false)) := by
  refine ⟨?_, ?_, ?_, ?_⟩
  · intro rng t st
    unfold runnerTick
    split <;> rfl
  · intro rng t st h
    unfold runnerTick
    simp [h]
  · intro rng t st hrun hpau
    unfold runnerTick
    simp [hrun, hpau]
  · intro t st h
    unfold reactTick
    rcases h with h | h <;> simp [h]

/-- Witness for the amended C1 at concrete inputs. -/
theorem tick_render_spec_witness :
    (runnerTick rng0 3 (runnerInit 0)).2 = true ∧
    (runnerTick rng0 3 runnerStoppedSt).1 = runnerStoppedSt ∧
    (runnerTick rng0 3 runnerPausedSt).1 = { runnerPausedSt with lastT := 3 } ∧
    reactTick 2 reactPausedSt = ({ reactPausedSt with last := 2 }, false) := by
  have h := tick_render_spec
  exact ⟨h.1 rng0 3 (runnerInit 0), h.2.1 rng0 3 runnerStoppedSt rfl,
    h.2.2.1 rng0 3 runnerPausedSt rfl rfl, h.2.2.2 2 reactPausedSt (Or.inr rfl)⟩

/-- C8: newTarget always sets the response window to
clamp(1.55 - streak * 0.03, 0.55, 1.55); the window never goes below
0.55; and for every streak of at least 40 it equals exactly 0.55. -/
theorem reactWindow_spec :
    (∀ r st, (reactNewTarget r st).timeLeft =
      clamp (1.55 - (st.streak : ℚ) * 0.03) 0.55 1.55) ∧
    (∀ r st, (0.55 : ℚ) ≤ (reactNewTarget r st).timeLeft) ∧
    (∀ r st, 40 ≤ st.streak → (reactNewTarget r st).timeLeft = 0.55) := by
  refine ⟨fun r st => rfl, ?_, ?_⟩
  · intro r st
    show (0.55 : ℚ) ≤ clamp (1.55 - (st.streak : ℚ) * 0.03) 0.55 1.55
    unfold clamp
    exact le_max_left _ _
  · intro r st h
    show clamp (1.55 - (st.streak : ℚ) * 0.03) 0.55 1.55 = 0.55
    have h40 : (40 : ℚ) ≤ (st.streak : ℚ) := by exact_mod_cast h
    have hs : (40 : ℚ) * 0.03 ≤ (st.streak : ℚ) * 0.03 :=
      mul_le_mul_of_nonneg_right h40 (by norm_num)
    have hv : 1.55 - (st.streak : ℚ) * 0.03 ≤ 0.55 := by
      norm_num at hs ⊢
      linarith
    unfold clamp
    rw [min_eq_right (by linarith), max_eq_left hv]

/-- Witness for C8 at concrete inputs. -/
theorem reactWindow_spec_witness :
    (reactNewTarget 0.5 reactLiveSt).timeLeft =
      clamp (1.55 - (reactLiveSt.streak : ℚ) * 0.03) 0.55 1.55 ∧
    (0.55 : ℚ) ≤ (reactNewTarget 0.5 reactLiveSt).timeLeft ∧
    (reactNewTarget 0.5 reactStreak40).timeLeft = 0.55 := by
  have h := reactWindow_spec
  exact ⟨h.1 0.5 reactLiveSt, h.2.1 0.5 reactLiveSt,
    h.2.2 0.5 reactStreak40 (by norm_num [reactStreak40, reactLiveSt, reactPausedSt])⟩

/-- C10: a target-select input delivered while the Glitch React session
is paused or not live is completely ignored: the whole session state
(streak, target index, timer, window, live flag, best, persisted best)
is unchanged. -/
theorem reactHit_ignored (i : ℕ) (r : ℚ) (st : ReactState)
    (h : st.live = false ∨ st.paused = true) :
    reactHit i r st = st := by
  unfold reactHit
  rcases h with h | h <;> simp [h]

/-- Witness for C10 at a concrete input: a press on pad 2 while paused. -/
theorem reactHit_ignored_witness : reactHit 2 0.5 reactPausedSt = reactPausedSt :=
  reactHit_ignored 2 0.5 reactPausedSt (Or.inr rfl)

/-- A rejected purchase (bits below cost) leaves the state unchanged. -/
theorem clickerBuy_lt (i : Fin 3) (s : ClickerState)
    (h : s.bits < ((calcCost i s : ℤ) : ℚ)) : clickerBuy i s = s := by
  simp only [clickerBuy]
  rw [if_pos h]

/-- A successful purchase pays exactly the cost. -/
theorem clickerBuy_le_bits (i : Fin 3) (s : ClickerState)
    (h : ((calcCost i s : ℤ) : ℚ) ≤ s.bits) :
    (clickerBuy i s).bits = s.bits - ((calcCost i s : ℤ) : ℚ) := by
  simp only [clickerBuy]
  rw [if_neg (not_lt.mpr h)]
  rcases i with ⟨n, hn⟩
  interval_cases n <;> rfl

/-- A successful purchase raises the purchased upgrade's level by one. -/
theorem clickerBuy_level (i : Fin 3) (s : ClickerState)
    (h : ((calcCost i s : ℤ) : ℚ) ≤ s.bits) :
    (upgradeDefs i).level (clickerBuy i s) = (upgradeDefs i).level s + 1 := by
  simp only [clickerBuy]
  rw [if_neg (not_lt.mpr h)]
  rcases i with ⟨n, hn⟩
  interval_cases n <;> rfl

/-- No purchase ever changes the lifetime total. -/
theorem clickerBuy_total (i : Fin 3) (s : ClickerState) :
    (clickerBuy i s).total = s.total := by
  simp only [clickerBuy]
  split
  · rfl
  · rcases i with ⟨n, hn⟩
    interval_cases n <;> rfl

/-- The click gain is nonnegative whenever bits-per-click is. -/
theorem clickGain_nonneg (r : ℚ) (s : ClickerState) (hb : 0 ≤ s.bpc) :
    0 ≤ clickGain r s := by
  unfold clickGain
  split
  · have hm : (0 : ℚ) ≤ 3 + ((min 4 s.crit : ℕ) : ℚ) := by positivity
    exact mul_nonneg hb hm
  · simpa using hb

/-- A passive-income frame never lowers bits or total. -/
theorem clickerPassive_mono (dt : ℚ) (s : ClickerState) :
    s.bits ≤ (clickerPassive dt s).bits ∧ s.total ≤ (clickerPassive dt s).total := by
  simp only [clickerPassive]
  split_ifs with h1 h2 h3
  · exact ⟨le_refl _, le_refl _⟩
  · constructor <;> · simp only []; linarith
  · exact ⟨le_refl _, le_refl _⟩
  · exact ⟨le_refl _, le_refl _⟩

/-- No step lowers bits-per-click below zero. -/
theorem clickerStep_bpc_nonneg (s : ClickerState) (op : ClickerOp) (hb : 0 ≤ s.bpc) :
    0 ≤ (clickerStep op s).bpc := by
  cases op with
  | click r => exact hb
  | tick dt =>
    simp only [clickerStep, clickerPassive]
    split_ifs <;> exact hb
  | buy i =>
    simp only [clickerStep, clickerBuy]
    split_ifs with h
    · exact hb
    · rcases i with ⟨n, hn⟩
      interval_cases n
      · show (0 : ℚ) ≤ s.bpc + 1
        linarith
      · exact hb
      · exact hb
  | restart => exact zero_le_one

/-- No single non-restart step lowers the lifetime total. -/
theorem clickerStep_total_mono (s : ClickerState) (op : ClickerOp) (hb : 0 ≤ s.bpc)
    (hop : op ≠ ClickerOp.restart) : s.total ≤ (clickerStep op s).total := by
  cases op with
  | click r =>
    have hg := clickGain_nonneg r s hb
    simp only [clickerStep, clickerClick]
    linarith
  | tick dt => exact (clickerPassive_mono dt s).2
  | buy i =>
    have h := clickerBuy_total i s
    simp only [clickerStep]
    rw [h]
  | restart => exact absurd rfl hop

/-- Over any restart-free operation sequence the lifetime total never
decreases. -/
theorem clickerSteps_total_mono (ops : List ClickerOp) : ∀ s : ClickerState, 0 ≤ s.bpc →
    (∀ op ∈ ops, op ≠ ClickerOp.restart) →
    s.total ≤ (List.foldl (fun acc op => clickerStep op acc) s ops).total := by
  induction ops with
  | nil =>
    intro s _ _
    exact le_refl _
  | cons op ops ih =>
    intro s hb hops
    have h1 := clickerStep_total_mono s op hb (hops op (List.mem_cons_self _ _))
    have h2 := ih (clickerStep op s) (clickerStep_bpc_nonneg s op hb)
      (fun o ho => hops o (List.mem_cons_of_mem _ ho))
    exact le_trans h1 h2

/-- C6: calcCost reads the cost floor(base * mult ^ level) at the state's
current level; the cost is monotonically non-decreasing in the level; and
for the core upgrade (base 25, growth 1.22) it is 25 at level 0, 30 at
level 1 and 67 at level 5. -/
theorem calcCost_spec :
    (∀ i s, calcCost i s =
      ⌊(upgradeDefs i).base * (upgradeDefs i).mult ^ (upgradeDefs i).level s⌋) ∧
    (∀ i lvl, costAt i lvl ≤ costAt i (lvl + 1)) ∧
    costAt 0 0 = 25 ∧ costAt 0 1 = 30 ∧ costAt 0 5 = 67 := by
  have hb : ∀ i : Fin 3, 0 ≤ (upgradeDefs i).base ∧ 1 ≤ (upgradeDefs i).mult := by
    intro i
    rcases i with ⟨n, hn⟩
    interval_cases n
    · exact ⟨by norm_num [upgradeDefs], by norm_num [upgradeDefs]⟩
    · exact ⟨by norm_num [upgradeDefs], by norm_num [upgradeDefs]⟩
    · exact ⟨by norm_num [upgradeDefs], by norm_num [upgradeDefs]⟩
  have hb0 : (upgradeDefs 0).base = 25 := rfl
  have hm0 : (upgradeDefs 0).mult = 1.22 := rfl
  refine ⟨fun i s => rfl, ?_, ?_, ?_, ?_⟩
  · intro i lvl
    obtain ⟨hbase, hmult⟩ := hb i
    have hm1 : (0 : ℚ) ≤ (upgradeDefs i).mult := le_trans zero_le_one hmult
    have hpow : (upgradeDefs i).mult ^ lvl ≤ (upgradeDefs i).mult ^ (lvl + 1) := by
      rw [pow_succ]
      exact le_mul_of_one_le_right (pow_nonneg hm1 lvl) hmult
    exact Int.floor_le_floor (mul_le_mul_of_nonneg_left hpow hbase)
  · show (⌊(upgradeDefs 0).base * (upgradeDefs 0).mult ^ (0 : ℕ)⌋ : ℤ) = 25
    rw [hb0, hm0]
    norm_num
  · show (⌊(upgradeDefs 0).base * (upgradeDefs 0).mult ^ (1 : ℕ)⌋ : ℤ) = 30
    rw [hb0, hm0]
    norm_num
  · show (⌊(upgradeDefs 0).base * (upgradeDefs 0).mult ^ (5 : ℕ)⌋ : ℤ) = 67
    rw [hb0, hm0]
    norm_num

/-- C7: a purchase succeeds only when bits cover the cost (otherwise the
state is unchanged); on success bits drop by exactly the cost, the level
rises by one, and the upgrade's effect applies exactly once (core adds 1
to bits-per-click and nothing else of the kind, drip adds 1 to
bits-per-second, crit only raises the crit level); in particular buying
core with bits = 25 at level 0 leaves bits = 0, bits-per-click raised by
1 and core level 1. -/
theorem clickerBuy_spec :
    (∀ i s, s.bits < ((calcCost i s : ℤ) : ℚ) → clickerBuy i s = s) ∧
    (∀ i s, ((calcCost i s : ℤ) : ℚ) ≤ s.bits →
      (clickerBuy i s).bits = s.bits - ((calcCost i s : ℤ) : ℚ) ∧
      (upgradeDefs i).level (clickerBuy i s) = (upgradeDefs i).level s + 1) ∧
    (∀ s, ((calcCost 0 s : ℤ) : ℚ) ≤ s.bits →
      (clickerBuy 0 s).bpc = s.bpc + 1 ∧ (clickerBuy 0 s).bps = s.bps) ∧
    (∀ s, ((calcCost 1 s : ℤ) : ℚ) ≤ s.bits →
      (clickerBuy 1 s).bps = s.bps + 1 ∧ (clickerBuy 1 s).bpc = s.bpc) ∧
    (∀ s, ((calcCost 2 s : ℤ) : ℚ) ≤ s.bits →
      (clickerBuy 2 s).bpc = s.bpc ∧ (clickerBuy 2 s).bps = s.bps ∧
        (clickerBuy 2 s).crit = s.crit + 1) ∧
    ((clickerBuy 0 { clickerInit with bits := 25 }).bits = 0 ∧
      (clickerBuy 0 { clickerInit with bits := 25 }).bpc = clickerInit.bpc + 1 ∧
      (clickerBuy 0 { clickerInit with bits := 25 }).core = 1) := by
  have hcost : ((calcCost 0 { clickerInit with bits := 25 } : ℤ) : ℚ) = 25 := by
    have : calcCost 0 { clickerInit with bits := 25 } =
        (⌊(25 : ℚ) * (1.22 : ℚ) ^ (0 : ℕ)⌋ : ℤ) := rfl
    rw [this]
    norm_num
  have hsel : ∀ s : ClickerState, ((calcCost 0 s : ℤ) : ℚ) ≤ s.bits →
      (clickerBuy 0 s).bpc = s.bpc + 1 ∧ (clickerBuy 0 s).bps = s.bps := by
    intro s h
    simp only [clickerBuy]
    rw [if_neg (not_lt.mpr h)]
    exact ⟨rfl, rfl⟩
  refine ⟨clickerBuy_lt,
    fun i s h => ⟨clickerBuy_le_bits i s h, clickerBuy_level i s h⟩, hsel, ?_, ?_, ?_⟩
  · intro s h
    simp only [clickerBuy]
    rw [if_neg (not_lt.mpr h)]
    exact ⟨rfl, rfl⟩
  · intro s h
    simp only [clickerBuy]
    rw [if_neg (not_lt.mpr h)]
    exact ⟨rfl, rfl, rfl⟩
  · have hle : ((calcCost 0 { clickerInit with bits := 25 } : ℤ) : ℚ) ≤
        ({ clickerInit with bits := 25 } : ClickerState).bits := by
      rw [hcost]
    have hb := clickerBuy_le_bits 0 { clickerInit with bits := 25 } hle
    have hs := hsel { clickerInit with bits := 25 } hle
    refine ⟨?_, hs.1, ?_⟩
    · rw [hb, hcost]
      norm_num
    · have hl := clickerBuy_level 0 { clickerInit with bits := 25 } hle
      exact hl

/-- Witness for C7 at concrete inputs: with 0 bits the core purchase is
rejected unchanged; with 25 bits it pays exactly the cost and raises the
core level by one. -/
theorem clickerBuy_spec_witness :
    clickerBuy 0 clickerInit = clickerInit ∧
    (clickerBuy 0 { clickerInit with bits := 25 }).bits =
      ({ clickerInit with bits := 25 } : ClickerState).bits -
        ((calcCost 0 { clickerInit with bits := 25 } : ℤ) : ℚ) ∧
    (upgradeDefs 0).level (clickerBuy 0 { clickerInit with bits := 25 }) =
      (upgradeDefs 0).level { clickerInit with bits := 25 } + 1 := by
  have h := clickerBuy_spec
  have hc0 : ((calcCost 0 clickerInit : ℤ) : ℚ) = 25 := by
    have he : calcCost 0 clickerInit = (⌊(25 : ℚ) * (1.22 : ℚ) ^ (0 : ℕ)⌋ : ℤ) := rfl
    rw [he]
    norm_num
  have hc25 : ((calcCost 0 { clickerInit with bits := 25 } : ℤ) : ℚ) = 25 := by
    have he : calcCost 0 { clickerInit with bits := 25 } =
        (⌊(25 : ℚ) * (1.22 : ℚ) ^ (0 : ℕ)⌋ : ℤ) := rfl
    rw [he]
    norm_num
  have hlt : clickerInit.bits < ((calcCost 0 clickerInit : ℤ) : ℚ) := by
    rw [hc0]
    norm_num [clickerInit]
  have hle : ((calcCost 0 { clickerInit with bits := 25 } : ℤ) : ℚ) ≤
      ({ clickerInit with bits := 25 } : ClickerState).bits := by
    rw [hc25]
  exact ⟨h.1 0 clickerInit hlt, (h.2.1 0 _ hle).1, (h.2.1 0 _ hle).2⟩

/-- C2 counterexample: the operation sequence click-then-restart strictly
decreases both the lifetime total and the spendable bits (from 1 down to
0), so neither is non-decreasing over sequences that include restart, and
bits can drop without any purchase. -/
theorem clicker_restart_drop :
    (clickerStep ClickerOp.restart (clickerStep (ClickerOp.click 1) clickerInit)).total <
      (clickerStep (ClickerOp.click 1) clickerInit).total ∧
    (clickerStep ClickerOp.restart (clickerStep (ClickerOp.click 1) clickerInit)).bits <
      (clickerStep (ClickerOp.click 1) clickerInit).bits := by
  have hg : clickGain 1 clickerInit = 1 := by
    norm_num [clickGain, critChance, clamp, clickerInit]
  have h1 : (clickerStep (ClickerOp.click 1) clickerInit).total = 1 := by
    simp only [clickerStep, clickerClick]
    rw [hg]
    norm_num [clickerInit]
  have h1b : (clickerStep (ClickerOp.click 1) clickerInit).bits = 1 := by
    simp only [clickerStep, clickerClick]
    rw [hg]
    norm_num [clickerInit]
  have h2 : ∀ x : ClickerState, (clickerStep ClickerOp.restart x).total = 0 := fun _ => rfl
  have h2b : ∀ x : ClickerState, (clickerStep ClickerOp.restart x).bits = 0 := fun _ => rfl
  rw [h1, h1b, h2, h2b]
  norm_num

/-- C2 (amended): over operations other than restart, the lifetime total
never decreases (per step and over whole sequences), and spendable bits
strictly decrease only through a successful upgrade purchase, by exactly
the purchase cost; restart resets both total and bits to zero. -/
theorem clicker_monotonic_spec :
    (∀ s op, 0 ≤ s.bpc → op ≠ ClickerOp.restart →
      s.total ≤ (clickerStep op s).total ∧
      ((clickerStep op s).bits < s.bits →
        ∃ i, op = ClickerOp.buy i ∧
          (clickerStep op s).bits = s.bits - ((calcCost i s : ℤ) : ℚ) ∧
          ((calcCost i s : ℤ) : ℚ) ≤ s.bits)) ∧
    (∀ s ops, 0 ≤ s.bpc → (∀ op ∈ ops, op ≠ ClickerOp.restart) →
      s.total ≤ (List.foldl (fun acc op => clickerStep op acc) s ops).total) ∧
    (∀ s, (clickerStep ClickerOp.restart s).total = 0 ∧
      (clickerStep ClickerOp.restart s).bits = 0) := by
  refine ⟨?_, fun s ops hb hops => clickerSteps_total_mono ops s hb hops,
    fun s => ⟨rfl, rfl⟩⟩
  intro s op hb hop
  refine ⟨clickerStep_total_mono s op hb hop, ?_⟩
  intro hlt
  cases op with
  | click r =>
    exfalso
    have hg := clickGain_nonneg r s hb
    have hbits : (clickerStep (ClickerOp.click r) s).bits = s.bits + clickGain r s := rfl
    rw [hbits] at hlt
    linarith
  | tick dt =>
    exact absurd hlt (not_lt.mpr (clickerPassive_mono dt s).1)
  | buy i =>
    by_cases hle : ((calcCost i s : ℤ) : ℚ) ≤ s.bits
    · exact ⟨i, rfl, clickerBuy_le_bits i s hle, hle⟩
    · exfalso
      have heq : clickerStep (ClickerOp.buy i) s = s := clickerBuy_lt i s (not_le.mp hle)
      rw [heq] at hlt
      exact lt_irrefl _ hlt
  | restart => exact absurd rfl hop

/-- Witness for the amended C2 at concrete inputs. -/
theorem clicker_monotonic_spec_witness :
    clickerInit.total ≤ (clickerStep (ClickerOp.click 2) clickerInit).total ∧
    clickerInit.total ≤
      (List.foldl (fun acc op => clickerStep op acc) clickerInit [ClickerOp.click 2]).total ∧
    (clickerStep ClickerOp.restart clickerInit).total = 0 := by
  have h := clicker_monotonic_spec
  have hne : ClickerOp.click 2 ≠ ClickerOp.restart := fun hcon => ClickerOp.noConfusion hcon
  refine ⟨(h.1 clickerInit (ClickerOp.click 2) zero_le_one hne).1,
    h.2.1 clickerInit [ClickerOp.click 2] zero_le_one ?_, (h.2.2 clickerInit).1⟩
  intro o ho
  rw [List.mem_singleton] at ho
  rw [ho]
  exact hne
